import Mathlib

/-!
Verification of the graphtype translation engine (src/lib/typescript.ts).

The definitions below are a shallow embedding of the TypeScript source:
each Lean definition mirrors one function of src/lib/typescript.ts (the
current translator; src/unnamed/part_003 and part_004 are older variants of
the same module and are noted where they differ).  JavaScript strings are
Lean String, JS numbers used by the translator are Lean Int, JS truthiness
is made explicit, and the exception path of the queue builder is an Except.
The line separator os.EOL is fixed to the POSIX value, matching the
platform the observable claims were written against; no claim depends on
the separator byte itself.
-/

namespace Graphtype

/-- Models os.EOL on POSIX platforms. -/
def EOL : String := "\n"

/-- Constant TAB from src/lib/typescript.ts line 30. -/
def TAB : String := "    "

/-- Models Array.prototype.join: the elements separated by the separator,
the empty string on the empty array. -/
def joinSep (sep : String) : List String → String
  | [] => ""
  | [x] => x
  | x :: y :: rest => x ++ sep ++ joinSep sep (y :: rest)

/-- JavaScript truthiness of a string: nonempty strings are truthy. -/
def jsTruthy (s : String) : Prop := s ≠ ""

instance (s : String) : Decidable (jsTruthy s) :=
  inferInstanceAs (Decidable (s ≠ ""))

/-- Value of the defaultValue property of an InputValue
(string, number or null in src/lib/interface.ts). -/
inductive JsDefault where
  | null : JsDefault
  | str : String → JsDefault
  | num : Int → JsDefault
deriving DecidableEq

/-- JavaScript truthiness of a defaultValue: null, 0 and the empty string
are falsy, every other value is truthy. -/
def JsDefault.truthy : JsDefault → Prop
  | .null => False
  | .str s => s ≠ ""
  | .num n => n ≠ 0

instance (d : JsDefault) : Decidable d.truthy :=
  match d with
  | .null => isFalse (fun h => h)
  | .str s => inferInstanceAs (Decidable (s ≠ ""))
  | .num n => inferInstanceAs (Decidable (n ≠ 0))

/-- String form of a defaultValue as produced by JS string concatenation;
the translator only stringifies truthy values, so the null branch is inert. -/
def JsDefault.toStr : JsDefault → String
  | .null => "null"
  | .str s => s
  | .num n => toString n

/-- TypeRef of src/lib/interface.ts as consumed by refToDefinition: a node
is a LIST wrapper, a NON_NULL wrapper, or a node of any other kind carrying
a name (the default branch of the switch only reads kind and name). -/
inductive TypeRef where
  | list : TypeRef → TypeRef
  | nonNull : TypeRef → TypeRef
  | named : String → String → TypeRef
deriving DecidableEq

/-- The kind tag of a TypeRef node. -/
def TypeRef.kind : TypeRef → String
  | .list _ => "LIST"
  | .nonNull _ => "NON_NULL"
  | .named k _ => k

/-- The name of a TypeRef node; wrapper nodes carry name null in the
introspection data, which JS Array.prototype.join renders as the empty
string, so the wrapper branches produce the empty string. -/
def TypeRef.name : TypeRef → String
  | .list _ => ""
  | .nonNull _ => ""
  | .named _ n => n

/-- Field of src/lib/interface.ts (the args property is never read by the
translator and is omitted). -/
structure Field where
  name : String
  description : String
  isDeprecated : Bool
  deprecationReason : String
  type : TypeRef
deriving DecidableEq

/-- InputValue of src/lib/interface.ts. -/
structure InputValue where
  name : String
  description : String
  defaultValue : JsDefault
  type : TypeRef
deriving DecidableEq

/-- EnumValue of src/lib/interface.ts. -/
structure EnumValue where
  name : String
  description : String
  isDeprecated : Bool
  deprecationReason : String
deriving DecidableEq

/-- SchemaType of src/lib/interface.ts. -/
structure SchemaType where
  kind : String
  name : String
  description : String
  fields : List Field
  inputFields : List InputValue
  interfaces : List TypeRef
  enumValues : List EnumValue
  possibleTypes : List TypeRef
deriving DecidableEq

/-- Root type descriptor (queryType, mutationType, subscriptionType). -/
structure RootDesc where
  name : String
  description : String
deriving DecidableEq

/-- One element of the schema.types array.  The JSON array may contain the
JS values null and undefined besides proper SchemaType objects; the sort
comparator and the truthiness guard of the queue builder treat the three
cases differently, so all three are represented. -/
inductive TypeEntry where
  | undef : TypeEntry
  | null : TypeEntry
  | val : SchemaType → TypeEntry
deriving DecidableEq

/-- Schema of src/lib/interface.ts (directives are carried but never read
by the translator). -/
structure Schema where
  queryType : Option RootDesc
  mutationType : Option RootDesc
  subscriptionType : Option RootDesc
  types : List TypeEntry
  directives : List String
deriving DecidableEq

/-- Scalar alias table, a JS object used as a string map. -/
def AliasTable : Type := String → Option String

/-!  Comment synthesis utilities (lines 30 to 56 of the source). -/

/-- Function beginComment. -/
def beginComment (tab : String) : String := tab ++ "/**"

/-- Greedy filling of words into lines of at most 80 characters, the
wrapping behaviour of the word-wrap npm dependency (an external package,
not part of this repository) at the call site of toComment.  No claim
depends on the exact wrap points. -/
def fillWords : List String → String → List String
  | [], cur => if cur = "" then [] else [cur]
  | w :: ws, cur =>
    if cur = "" then fillWords ws w
    else if (cur ++ " " ++ w).length ≤ 80 then fillWords ws (cur ++ " " ++ w)
    else cur :: fillWords ws w

/-- Function toComment: word-wrap with width 80 and indent tab plus the
comment continuation marker; on the empty string the package returns the
indent alone. -/
def toComment (comment : String) (tab : String) : String :=
  let indent := tab ++ " * "
  indent ++ joinSep ("\n" ++ indent)
    (if comment = "" then [] else fillWords (comment.splitOn " ") "")

/-- Function endComment. -/
def endComment (tab : String) : String := tab ++ " */"

/-- Function utilDefinition. -/
def utilDefinition : String :=
  joinSep EOL
    [ "type NonNull<T> = T;",
      "type List<T> = T[];",
      "type Optional<T> = T | null;" ]

/-- Function responseDefinition. -/
def responseDefinition (responseTypes : List String) : String :=
  joinSep EOL
    [ "export interface Response \x7b",
      "",
      TAB ++ "data: " ++ joinSep " | " responseTypes ++ ";",
      "",
      TAB ++ "errors?: ErrorResponse[];",
      "\x7d",
      "",
      "export interface ErrorResponse \x7b",
      "",
      TAB ++ "locations: ErrorLocation[];",
      "",
      TAB ++ "message: string;",
      "\x7d",
      "",
      "export interface ErrorLocation \x7b",
      "",
      TAB ++ "line: number;",
      "",
      TAB ++ "column: number;",
      "\x7d" ]

/-- Function refToDefinition (lines 96 to 107): the switch on type.kind
with the LIST branch resetting the non-null flag and the NON_NULL branch
setting it; the default branch emits the bare name when the flag is set
and an Optional wrapper otherwise. -/
def refToDefinition : TypeRef → Bool → String
  | .list ofType, _ => "List<" ++ refToDefinition ofType false ++ ">"
  | .nonNull ofType, _ => "NonNull<" ++ refToDefinition ofType true ++ ">"
  | .named _ name, isNonNull =>
    if isNonNull then name else "Optional<" ++ name ++ ">"

/-- The documentation facets descriptionToComment reads off its structural
argument; entity records lacking a facet supply the JS undefined, which is
falsy, and are projected to the falsy value here. -/
structure DocFacets where
  description : String
  isDeprecated : Bool
  deprecationReason : String
  defaultValue : JsDefault
deriving DecidableEq

/-- Facets of a Field (fields carry no defaultValue). -/
def Field.docFacets (f : Field) : DocFacets :=
  ⟨f.description, f.isDeprecated, f.deprecationReason, .null⟩

/-- Facets of an InputValue (input values carry no deprecation data). -/
def InputValue.docFacets (v : InputValue) : DocFacets :=
  ⟨v.description, false, "", v.defaultValue⟩

/-- Facets of an EnumValue. -/
def EnumValue.docFacets (v : EnumValue) : DocFacets :=
  ⟨v.description, v.isDeprecated, v.deprecationReason, .null⟩

/-- Facets of a SchemaType (schema types carry neither deprecation data
nor a defaultValue). -/
def SchemaType.docFacets (t : SchemaType) : DocFacets :=
  ⟨t.description, false, "", .null⟩

/-- Function descriptionToComment (lines 112 to 150): guarded by JS
truthiness of the three facets; inside, a deprecation notice, a default
annotation and the wrapped description are accumulated in that order with
blank comment lines between consecutive entries, then delimited. -/
def descriptionToComment (desc : DocFacets) (tab : String) : String :=
  if desc.defaultValue.truthy ∨ jsTruthy desc.description ∨ desc.isDeprecated = true then
    let parts : List String := []
    let parts :=
      if desc.isDeprecated = true then
        let deprecated :=
          if jsTruthy desc.deprecationReason then
            "@deprecated" ++ " " ++ desc.deprecationReason
          else "@deprecated"
        parts ++ [toComment deprecated tab]
      else parts
    let parts :=
      if desc.defaultValue.truthy then
        (if parts.length > 0 then parts ++ [toComment "" tab] else parts)
          ++ [toComment ("@default " ++ desc.defaultValue.toStr) tab]
      else parts
    let parts :=
      if jsTruthy desc.description then
        (if parts.length > 0 then parts ++ [toComment "" tab] else parts)
          ++ [toComment desc.description tab]
      else parts
    joinSep "\n" (beginComment tab :: (parts ++ [endComment tab]))
  else ""

/-- Function scalarToDefinition (lines 157 to 166); the second parameter
is the alias table lookup, whose JS undefined triggers the default
parameter value string. -/
def scalarToDefinition (t : SchemaType) (typescriptAlias : Option String) : String :=
  let typescriptAlias := typescriptAlias.getD "string"
  let parts := if jsTruthy t.description then [descriptionToComment t.docFacets ""] else []
  joinSep EOL
    (parts ++ ["export type " ++ t.name ++ " = " ++ typescriptAlias ++ ";"])

/-- Function fieldToDefinition (lines 171 to 183). -/
def fieldToDefinition (field : Field) : String :=
  let assign := if field.type.kind = "NON_NULL" then ": " else "?: "
  let parts := [""] ++
    (if jsTruthy field.description ∨ field.isDeprecated = true then
      [descriptionToComment field.docFacets TAB]
    else [])
  joinSep EOL
    (parts ++ [TAB ++ field.name ++ assign ++ refToDefinition field.type false ++ ";"])

/-- Function fieldsToDefinition. -/
def fieldsToDefinition (fields : List Field) : String :=
  joinSep EOL (fields.map fieldToDefinition)

/-- Function typeToDefinition (lines 196 to 211). -/
def typeToDefinition (t : SchemaType) : String :=
  let impl :=
    if t.interfaces.length > 0 then
      " extends " ++ joinSep ", " (t.interfaces.map TypeRef.name)
    else ""
  let parts := if jsTruthy t.description then [descriptionToComment t.docFacets ""] else []
  joinSep EOL
    (parts ++ ["export interface " ++ t.name ++ impl ++ " \x7b",
               fieldsToDefinition t.fields,
               "\x7d"])

/-- Function interfaceToDefinition (lines 216 to 228). -/
def interfaceToDefinition (t : SchemaType) : String :=
  let parts := if jsTruthy t.description then [descriptionToComment t.docFacets ""] else []
  joinSep EOL
    (parts ++ ["export interface " ++ t.name ++ " \x7b",
               fieldsToDefinition t.fields,
               "\x7d"])

/-- Function inputValueToDefinition (lines 233 to 244): the comment
synthesizer is invoked only under the truthiness of arg.description. -/
def inputValueToDefinition (arg : InputValue) : String :=
  let assign := if arg.type.kind = "NON_NULL" then ": " else "?: "
  let parts := [""] ++
    (if jsTruthy arg.description then [descriptionToComment arg.docFacets TAB] else [])
  joinSep EOL
    (parts ++ [TAB ++ arg.name ++ assign ++ refToDefinition arg.type false ++ ";"])

/-- Function inputValuesToDefinition. -/
def inputValuesToDefinition (args : List InputValue) : String :=
  joinSep EOL (args.map inputValueToDefinition)

/-- Function inputToDefinition (lines 257 to 269). -/
def inputToDefinition (t : SchemaType) : String :=
  let parts := if jsTruthy t.description then [descriptionToComment t.docFacets ""] else []
  joinSep EOL
    (parts ++ ["export interface " ++ t.name ++ " \x7b",
               inputValuesToDefinition t.inputFields,
               "\x7d"])

/-- Function unionToDefinition (lines 274 to 288). -/
def unionToDefinition (t : SchemaType) : String :=
  let parts := if jsTruthy t.description then [descriptionToComment t.docFacets ""] else []
  joinSep EOL
    (parts ++ ["export type " ++ t.name ++ " = " ++
               joinSep " | " (t.possibleTypes.map TypeRef.name) ++ ";"])

/-- Function enumValueToDefinition (lines 293 to 303). -/
def enumValueToDefinition (value : EnumValue) : String :=
  let parts := [""] ++
    (if jsTruthy value.description then [descriptionToComment value.docFacets TAB] else [])
  joinSep EOL (parts ++ [TAB ++ "\"" ++ value.name ++ "\""])

/-- Function enumValuesToDefinition. -/
def enumValuesToDefinition (vals : List EnumValue) : String :=
  joinSep (" |" ++ EOL) (vals.map enumValueToDefinition)

/-- Function enumToDefinition (lines 316 to 328). -/
def enumToDefinition (t : SchemaType) : String :=
  let parts := if jsTruthy t.description then [descriptionToComment t.docFacets ""] else []
  joinSep EOL
    (parts ++ ["export type " ++ t.name ++ " = (",
               enumValuesToDefinition t.enumValues,
               ");"])

/-!  Schema orderer and emitter (lines 330 to 486 of the source). -/

/-- The TypeOrder enum (lines 330 to 337): indexing the enum object with a
kind string yields the numeric member position, or the JS undefined for any
other string. -/
def typeOrder (kind : String) : Option Int :=
  if kind = "SCALAR" then some 0
  else if kind = "ENUM" then some 1
  else if kind = "UNION" then some 2
  else if kind = "INTERFACE" then some 3
  else if kind = "OBJECT" then some 4
  else if kind = "INPUT_OBJECT" then some 5
  else none

/-- A SchemaType whose kind is one of the six members of TypeOrder; these
are exactly the kinds the dispatch switch of the queue builder accepts. -/
def knownKind (t : SchemaType) : Prop := (typeOrder t.kind).isSome = true

instance (t : SchemaType) : Decidable (knownKind t) :=
  inferInstanceAs (Decidable (_ = true))

/-- Lexicographic strict comparison of character sequences by code
point. -/
def charListLt : List Char → List Char → Bool
  | [], [] => false
  | [], _ :: _ => true
  | _ :: _, [] => false
  | c :: cs, d :: ds =>
    if c.toNat < d.toNat then true
    else if d.toNat < c.toNat then false
    else charListLt cs ds

/-- Code point order on strings. -/
def stringLtB (a b : String) : Bool := charListLt a.data b.data

/-- Models String.prototype.localeCompare with the default locale.  For
the names occurring in this development (ASCII letters and digits) the
locale collation order coincides with code point order. -/
def localeCompare (a b : String) : Int :=
  if stringLtB a b then -1 else if stringLtB b a then 1 else 0

/-- The sort comparator passed to schema.types.sort (lines 449 to 455):
equal kinds compare by name, different kinds by TypeOrder position; when a
position is the JS undefined the subtraction yields NaN, which
Array.prototype.sort treats as comparison result zero. -/
def compareTypes (typeA typeB : SchemaType) : Int :=
  if typeA.kind = typeB.kind then localeCompare typeA.name typeB.name
  else
    match typeOrder typeA.kind, typeOrder typeB.kind with
    | some x, some y => x - y
    | _, _ => 0

/-- The comparator applied to two array entries: reading the kind property
of the JS null raises a TypeError, which aborts the sort. -/
def jsComparator : TypeEntry → TypeEntry → Except String Int
  | .val a, .val b => .ok (compareTypes a b)
  | _, _ => .error "TypeError: Cannot read properties of null"

/-- SortCompare of the ECMAScript Array.prototype.sort specification:
undefined entries compare greater than everything without invoking the
user comparator; all other pairs go to the comparator. -/
def sortCompareE : TypeEntry → TypeEntry → Except String Int
  | .undef, .undef => .ok 0
  | .undef, _ => .ok 1
  | _, .undef => .ok (-1)
  | x, y => jsComparator x y

/-- Stable insertion of one entry into an already sorted list, comparing
with SortCompare; an entry is placed before the first element it compares
less-or-equal to, which reproduces the stable order ECMAScript requires. -/
def orderedInsertE (a : TypeEntry) : List TypeEntry → Except String (List TypeEntry)
  | [] => .ok [a]
  | b :: l =>
    match sortCompareE a b with
    | .error e => .error e
    | .ok c =>
      if c ≤ 0 then .ok (a :: b :: l)
      else
        match orderedInsertE a l with
        | .error e => .error e
        | .ok tail => .ok (b :: tail)

/-- The in-place schema.types.sort modelled as a stable sort returning the
sorted array; a comparison that raises propagates the TypeError exactly as
the JS sort aborts. -/
def insertionSortE : List TypeEntry → Except String (List TypeEntry)
  | [] => .ok []
  | a :: l =>
    match insertionSortE l with
    | .error e => .error e
    | .ok tail => orderedInsertE a tail

/-- The pure order the comparator induces on proper SchemaType entries. -/
def typeLe (a b : SchemaType) : Prop := compareTypes a b ≤ 0

instance : DecidableRel typeLe := fun a b =>
  inferInstanceAs (Decidable (compareTypes a b ≤ 0))

/-- The dispatch switch of the forEach in createSchemaDefinitionQueue
(lines 459 to 481): one renderer per known kind, a thrown error naming the
kind otherwise.  The queued thunks are pure, so their deferred evaluation
is modelled by the rendered string itself. -/
def renderEntity (aliases : AliasTable) (t : SchemaType) : Except String String :=
  if t.kind = "SCALAR" then .ok (scalarToDefinition t (aliases t.name))
  else if t.kind = "ENUM" then .ok (enumToDefinition t)
  else if t.kind = "UNION" then .ok (unionToDefinition t)
  else if t.kind = "INTERFACE" then .ok (interfaceToDefinition t)
  else if t.kind = "OBJECT" then .ok (typeToDefinition t)
  else if t.kind = "INPUT_OBJECT" then .ok (inputToDefinition t)
  else .error ("Unexpected type: " ++ t.kind)

/-- The forEach over the sorted entries: the truthiness guard skips the JS
null and undefined, every proper entry is dispatched. -/
def buildBlocks (aliases : AliasTable) : List TypeEntry → Except String (List String)
  | [] => .ok []
  | .val t :: rest =>
    match renderEntity aliases t with
    | .error e => .error e
    | .ok b =>
      match buildBlocks aliases rest with
      | .error e => .error e
      | .ok bs => .ok (b :: bs)
  | .null :: rest => buildBlocks aliases rest
  | .undef :: rest => buildBlocks aliases rest

/-- The Object.assign call of createSchemaDefinitionQueue (lines 423 to
428): the built-in mappings are the last assignment source, so they win
over caller entries for the four built-in names. -/
def withStandardAlias (scalarAlias : AliasTable) : AliasTable := fun name =>
  if name = "Boolean" then some "boolean"
  else if name = "Int" then some "number"
  else if name = "Float" then some "number"
  else if name = "String" then some "string"
  else scalarAlias name

/-- The responseTypes accumulation of createSchemaDefinitionQueue (lines
431 to 442). -/
def responseTypesOf (schema : Schema) : List String :=
  (match schema.queryType with | some q => [q.name] | none => []) ++
  (match schema.mutationType with | some m => [m.name] | none => []) ++
  (match schema.subscriptionType with | some s => [s.name] | none => []) ++
  ["null"]

/-- Function createSchemaDefinitionQueue (lines 417 to 486).  The returned
pair is the queue of rendered blocks together with the schema object after
the call: the in-place sort leaves schema.types permuted to the sorted
order, which is the one observable mutation of the input model. -/
def createSchemaDefinitionQueue (schema : Schema) (scalarAlias : AliasTable) :
    Except String (List String × Schema) :=
  match insertionSortE schema.types with
  | .error e => .error e
  | .ok sorted =>
    match buildBlocks (withStandardAlias scalarAlias) sorted with
    | .error e => .error e
    | .ok blocks =>
      .ok (utilDefinition :: responseDefinition (responseTypesOf schema) :: blocks,
           { schema with types := sorted })

/-- Function schemaToDefinition (lines 342 to 352): the eager access
pattern, joining every queued block with a double line separator and
appending one trailing double separator. -/
def schemaToDefinition (schema : Schema) (scalarAlias : AliasTable) :
    Except String (String × Schema) :=
  match createSchemaDefinitionQueue schema scalarAlias with
  | .error e => .error e
  | .ok (queue, post) => .ok (joinSep (EOL ++ EOL) queue ++ (EOL ++ EOL), post)

/-- One invocation of ReadableFromQueue.read (lines 359 to 372) on the
given queue.  The parameter pushRet is the value this.push returns to the
while loop.  The result is the list of chunks pushed, the remaining queue
and whether null was pushed (end of stream). -/
def readOnce (pushRet : Bool) : List String → (List String × List String × Bool)
  | [] => ([], [], true)
  | t :: rest =>
    if pushRet then ([t ++ EOL ++ EOL], rest, false)
    else ((t :: rest).map (fun u => u ++ EOL ++ EOL), [], true)

/-- The complete chunk sequence a ready consumer drains from
ReadableFromQueue: repeated read invocations, one chunk each, followed by
the end of stream.  The equations readOnce_cons and readOnce_nil below tie
this driver to the read model. -/
def readAllReady : List String → List String
  | [] => []
  | t :: rest => (t ++ EOL ++ EOL) :: readAllReady rest

/-- Function createReadableSchemaDefinition (lines 378 to 384): the queue
fed to the Readable, exposed here as the chunk sequence a ready consumer
receives. -/
def createReadableSchemaDefinition (schema : Schema) (scalarAlias : AliasTable) :
    Except String (List String) :=
  match createSchemaDefinitionQueue schema scalarAlias with
  | .error e => .error e
  | .ok (queue, _) => .ok (readAllReady queue)

/-- The body of the next closure of createPromiseSchemaDefinition iterated
to exhaustion: what the promise would resolve to if next were invoked. -/
def promiseNextRun : List String → String → String
  | [], buff => buff
  | t :: rest, buff => promiseNextRun rest (buff ++ t ++ EOL ++ EOL)

/-- Function createPromiseSchemaDefinition (lines 390 to 412).  The
executor defines the next closure and returns without ever invoking it, so
when the queue is built the promise stays pending forever; none models the
never-settling promise.  A throw inside createSchemaDefinitionQueue occurs
synchronously before the Promise constructor runs and propagates to the
caller, hence the outer Except. -/
def createPromiseSchemaDefinition (schema : Schema) (scalarAlias : AliasTable) :
    Except String (Option String) :=
  match createSchemaDefinitionQueue schema scalarAlias with
  | .error e => .error e
  | .ok _ => .ok none

/-- The total content a consumer receives from a chunk sequence. -/
def concatChunks : List String → String
  | [] => ""
  | c :: cs => c ++ concatChunks cs

/-- The proper SchemaType entries of a types array, in order. -/
def valsOf : List TypeEntry → List SchemaType
  | [] => []
  | .val t :: rest => t :: valsOf rest
  | .undef :: rest => valsOf rest
  | .null :: rest => valsOf rest

/-- The number of JS undefined entries of a types array. -/
def undefCount : List TypeEntry → Nat
  | [] => 0
  | .undef :: rest => undefCount rest + 1
  | .val _ :: rest => undefCount rest
  | .null :: rest => undefCount rest

/-- The rendered block of an entity of known kind, the value inside the ok
result of renderEntity for the six dispatched kinds. -/
def renderKnown (aliases : AliasTable) (t : SchemaType) : String :=
  if t.kind = "SCALAR" then scalarToDefinition t (aliases t.name)
  else if t.kind = "ENUM" then enumToDefinition t
  else if t.kind = "UNION" then unionToDefinition t
  else if t.kind = "INTERFACE" then interfaceToDefinition t
  else if t.kind = "OBJECT" then typeToDefinition t
  else inputToDefinition t

/-- The ordering the specification asserts for emitted entities: strictly
smaller kind precedence, or equal kind and ascending locale name
comparison. -/
def specLe (a b : SchemaType) : Prop :=
  (∃ x y, typeOrder a.kind = some x ∧ typeOrder b.kind = some y ∧ x < y) ∨
  (a.kind = b.kind ∧ localeCompare a.name b.name ≤ 0)

/-- The presence condition of the comment synthesizer as the claim states
it: at least one of hasDefault, hasDescription, isDeprecated holds under
source truthiness. -/
def hasDocFacet (d : DocFacets) : Prop :=
  d.defaultValue.truthy ∨ jsTruthy d.description ∨ d.isDeprecated = true

instance (d : DocFacets) : Decidable (hasDocFacet d) :=
  inferInstanceAs (Decidable (_ ∨ _ ∨ _))

/-!  Example fixtures used by concrete theorems and witnesses. -/

/-- An entity with the given kind and name and no other data. -/
def mkType (kind name : String) : SchemaType :=
  { kind := kind, name := name, description := "", fields := [],
    inputFields := [], interfaces := [], enumValues := [], possibleTypes := [] }

/-- A SCALAR entity named Int. -/
def scalarInt : SchemaType := mkType "SCALAR" "Int"

/-- Caller alias table mapping Int to a custom expression. -/
def c1Alias : AliasTable := fun n =>
  if n = "Int" then some "bigint-equivalent" else none

/-- The empty alias table. -/
def emptyAlias : AliasTable := fun _ => none

/-- A schema holding only the Int scalar. -/
def c1Schema : Schema :=
  { queryType := none, mutationType := none, subscriptionType := none,
    types := [.val scalarInt], directives := [] }

/-- A SCALAR entity named A. -/
def c3A : SchemaType := mkType "SCALAR" "A"

/-- An ENUM entity named Z. -/
def c3Z : SchemaType := mkType "ENUM" "Z"

/-- An OBJECT entity named A2. -/
def c3A2 : SchemaType := mkType "OBJECT" "A2"

/-- An OBJECT entity named B. -/
def c3B : SchemaType := mkType "OBJECT" "B"

/-- The ordering example of the claims: entities B, A, Z, A2 in input
order. -/
def c3Schema : Schema :=
  { queryType := none, mutationType := none, subscriptionType := none,
    types := [.val c3B, .val c3A, .val c3Z, .val c3A2], directives := [] }

/-- A schema whose types arrive unsorted: B before A. -/
def c5Schema : Schema :=
  { queryType := none, mutationType := none, subscriptionType := none,
    types := [.val c3B, .val c3A], directives := [] }

/-- A schema with a proper entry followed by a JS null entry. -/
def c10Schema : Schema :=
  { queryType := none, mutationType := none, subscriptionType := none,
    types := [.val c3A, .null], directives := [] }

/-- A schema with a JS undefined entry in front of a proper entry, so the
sort must move the undefined entry past the proper one. -/
def c10uSchema : Schema :=
  { queryType := none, mutationType := none, subscriptionType := none,
    types := [.undef, .val c3A], directives := [] }

/-- An entity of a kind outside the six dispatched kinds. -/
def weirdType : SchemaType := mkType "WEIRD" "W"

/-- A schema holding only the unknown kind entity. -/
def c7Schema : Schema :=
  { queryType := none, mutationType := none, subscriptionType := none,
    types := [.val weirdType], directives := [] }

/-!  Helper lemmas. -/

/-- Pushing with a ready consumer emits exactly one chunk per read call. -/
theorem readOnce_cons (t : String) (rest : List String) :
    readOnce true (t :: rest) = ([t ++ EOL ++ EOL], rest, false) := rfl

/-- A read on the exhausted queue pushes the end of stream marker. -/
theorem readOnce_nil : readOnce true [] = ([], [], true) := rfl

/-- Inserting the JS undefined into a run of undefined entries never calls
the user comparator and keeps the run. -/
theorem orderedInsertE_undef_replicate (k : Nat) :
    orderedInsertE .undef (List.replicate k .undef) =
      .ok (List.replicate (k + 1) .undef) := by
  cases k with
  | zero => rfl
  | succ k => simp [orderedInsertE, sortCompareE, List.replicate_succ]

/-- Inserting a proper entry into sorted proper entries followed by a run
of undefined entries matches the pure ordered insert; the undefined tail
only ever answers through SortCompare, never the user comparator. -/
theorem orderedInsertE_val_undefs (a : SchemaType) (m : List SchemaType) (k : Nat) :
    orderedInsertE (.val a) (m.map .val ++ List.replicate k .undef) =
      .ok ((List.orderedInsert typeLe a m).map .val ++ List.replicate k .undef) := by
  induction m with
  | nil =>
    cases k with
    | zero => rfl
    | succ k => simp [orderedInsertE, sortCompareE, List.replicate_succ, List.orderedInsert]
  | cons b m ih =>
    by_cases hab : compareTypes a b ≤ 0
    · simp [orderedInsertE, sortCompareE, jsComparator, List.orderedInsert, typeLe, hab]
    · simp [orderedInsertE, sortCompareE, jsComparator, List.orderedInsert, typeLe, hab, ih]

/-- The modelled JS sort on proper entries followed by undefined entries:
the proper entries are stably sorted by the comparator and the undefined
entries end up at the end, with no error. -/
theorem insertionSortE_val_undefs (l : List SchemaType) (k : Nat) :
    insertionSortE (l.map .val ++ List.replicate k .undef) =
      .ok ((List.insertionSort typeLe l).map .val ++ List.replicate k .undef) := by
  induction l with
  | nil =>
    induction k with
    | zero => rfl
    | succ k ihk =>
      simp only [List.map_nil, List.nil_append] at ihk ⊢
      simp [List.replicate_succ, insertionSortE, ihk, orderedInsertE_undef_replicate]
  | cons a l ihl =>
    simp only [List.map_cons, List.cons_append] at ihl ⊢
    simp [insertionSortE, ihl, orderedInsertE_val_undefs, List.insertionSort]

/-- The modelled JS sort on proper entries alone matches the pure stable
insertion sort under the comparator order. -/
theorem insertionSortE_val (l : List SchemaType) :
    insertionSortE (l.map .val) = .ok ((List.insertionSort typeLe l).map .val) := by
  have h := insertionSortE_val_undefs l 0
  simpa using h

/-- Inserting the JS undefined into sorted proper entries followed by a
run of undefined entries skips past every proper entry (SortCompare
answers one without calling the comparator) and lands at the front of the
undefined run. -/
theorem orderedInsertE_undef_vals (m : List SchemaType) (k : Nat) :
    orderedInsertE .undef (m.map .val ++ List.replicate k .undef) =
      .ok (m.map .val ++ List.replicate (k + 1) .undef) := by
  induction m with
  | nil => simpa using orderedInsertE_undef_replicate k
  | cons b m ih =>
    simp only [List.map_cons, List.cons_append]
    simp [orderedInsertE, sortCompareE, ih]

/-- The modelled JS sort on any mix of proper and undefined entries: the
proper entries are stably sorted by the comparator and every undefined
entry, wherever it sat in the input, is moved to the end, with no error
and no comparator call on an undefined entry. -/
theorem insertionSortE_mixed (entries : List TypeEntry)
    (h : ∀ e ∈ entries, e ≠ .null) :
    insertionSortE entries =
      .ok ((List.insertionSort typeLe (valsOf entries)).map .val ++
        List.replicate (undefCount entries) .undef) := by
  induction entries with
  | nil => rfl
  | cons e rest ih =>
    have hrest : ∀ x ∈ rest, x ≠ .null := fun x hx => h x (List.mem_cons_of_mem e hx)
    have he := h e (List.mem_cons_self e rest)
    cases e with
    | null => exact absurd rfl he
    | undef =>
      simp [insertionSortE, ih hrest, orderedInsertE_undef_vals, valsOf, undefCount]
    | val t =>
      simp [insertionSortE, ih hrest, orderedInsertE_val_undefs, valsOf, undefCount,
        List.insertionSort]

/-- The dispatch accepts an entity of known kind and yields its rendered
block. -/
theorem renderEntity_known (aliases : AliasTable) (t : SchemaType) (h : knownKind t) :
    renderEntity aliases t = .ok (renderKnown aliases t) := by
  unfold knownKind typeOrder at h
  unfold renderEntity renderKnown
  split_ifs at h ⊢ <;> simp_all

/-- The dispatch rejects an entity of unknown kind with the error naming
the kind. -/
theorem renderEntity_unknown (aliases : AliasTable) (t : SchemaType) (h : ¬ knownKind t) :
    renderEntity aliases t = .error ("Unexpected type: " ++ t.kind) := by
  unfold knownKind typeOrder at h
  unfold renderEntity
  split_ifs at h ⊢ <;> simp_all

/-- Rendering a list of known kind entities produces one block each, in
order. -/
theorem buildBlocks_known (aliases : AliasTable) (l : List SchemaType)
    (h : ∀ t ∈ l, knownKind t) :
    buildBlocks aliases (l.map .val) = .ok (l.map (renderKnown aliases)) := by
  induction l with
  | nil => rfl
  | cons t m ih =>
    have ht := h t (List.mem_cons_self t m)
    have hm : ∀ u ∈ m, knownKind u := fun u hu => h u (List.mem_cons_of_mem t hu)
    simp [buildBlocks, renderEntity_known aliases t ht, ih hm]

/-- Rendering known kind entities followed by a run of undefined entries
silently drops the undefined entries. -/
theorem buildBlocks_known_undefs (aliases : AliasTable) (l : List SchemaType) (k : Nat)
    (h : ∀ t ∈ l, knownKind t) :
    buildBlocks aliases (l.map .val ++ List.replicate k .undef) =
      .ok (l.map (renderKnown aliases)) := by
  induction l with
  | nil =>
    induction k with
    | zero => rfl
    | succ k ihk =>
      simp only [List.map_nil, List.nil_append] at ihk ⊢
      simpa [List.replicate_succ, buildBlocks] using ihk
  | cons t m ih =>
    have ht := h t (List.mem_cons_self t m)
    have hm : ∀ u ∈ m, knownKind u := fun u hu => h u (List.mem_cons_of_mem t hu)
    simp only [List.map_cons, List.cons_append] at ih ⊢
    simp [buildBlocks, renderEntity_known aliases t ht, ih hm]

/-- A successful rendering pass implies every entity had a known kind. -/
theorem buildBlocks_ok_known (aliases : AliasTable) (l : List SchemaType)
    (bs : List String) (h : buildBlocks aliases (l.map .val) = .ok bs) :
    ∀ t ∈ l, knownKind t := by
  induction l generalizing bs with
  | nil => simp
  | cons t m ih =>
    intro u hu
    by_cases hk : knownKind t
    · rcases List.mem_cons.mp hu with rfl | hum
      · exact hk
      · rw [List.map_cons] at h
        rw [show buildBlocks aliases (.val t :: m.map .val) =
              match renderEntity aliases t with
              | .error e => .error e
              | .ok b =>
                match buildBlocks aliases (m.map .val) with
                | .error e => .error e
                | .ok bs => .ok (b :: bs) from rfl] at h
        rw [renderEntity_known aliases t hk] at h
        cases hb : buildBlocks aliases (m.map .val) with
        | error e => rw [hb] at h; cases h
        | ok bs2 => exact ih bs2 hb u hum
    · rw [List.map_cons] at h
      simp [buildBlocks, renderEntity_unknown aliases t hk] at h

/-- If some entity has an unknown kind, the rendering pass aborts with the
unknown kind error of the first such entity. -/
theorem buildBlocks_unknown (aliases : AliasTable) (l : List SchemaType)
    (h : ∃ t, t ∈ l ∧ ¬ knownKind t) :
    ∃ u, u ∈ l ∧ ¬ knownKind u ∧
      buildBlocks aliases (l.map .val) = .error ("Unexpected type: " ++ u.kind) := by
  induction l with
  | nil => rcases h with ⟨t, ht, _⟩; cases ht
  | cons t m ih =>
    by_cases hk : knownKind t
    · have hm : ∃ u, u ∈ m ∧ ¬ knownKind u := by
        rcases h with ⟨u, hu, hku⟩
        rcases List.mem_cons.mp hu with rfl | hum
        · exact absurd hk hku
        · exact ⟨u, hum, hku⟩
      rcases ih hm with ⟨u, hum, hku, herr⟩
      exact ⟨u, List.mem_cons_of_mem t hum, hku, by
        simp [buildBlocks, renderEntity_known aliases t hk, herr]⟩
    · exact ⟨t, List.mem_cons_self t m, hk, by
        simp [buildBlocks, renderEntity_unknown aliases t hk]⟩

/-- Strict code point comparison is asymmetric. -/
theorem charListLt_asymm : ∀ {cs ds : List Char},
    charListLt cs ds = true → charListLt ds cs = false := by
  intro cs
  induction cs with
  | nil =>
    intro ds
    cases ds <;> simp [charListLt]
  | cons c cs ih =>
    intro ds
    cases ds with
    | nil => simp [charListLt]
    | cons d ds =>
      by_cases h1 : c.toNat < d.toNat
      · intro _
        simp [charListLt, h1, show ¬ d.toNat < c.toNat by omega]
      · by_cases h2 : d.toNat < c.toNat
        · simp [charListLt, h1, h2]
        · simp only [charListLt, if_neg h1, if_neg h2]
          exact ih

/-- Nonstrict code point comparison is transitive. -/
theorem charListLt_le_trans : ∀ {es ds cs : List Char},
    charListLt ds cs = false → charListLt es ds = false →
    charListLt es cs = false := by
  intro es
  induction es with
  | nil =>
    intro ds cs h1 h2
    cases ds with
    | nil =>
      cases cs with
      | nil => rfl
      | cons c cs => exact absurd h1 (by simp [charListLt])
    | cons d ds => exact absurd h2 (by simp [charListLt])
  | cons e es ih =>
    intro ds cs h1 h2
    cases cs with
    | nil => rfl
    | cons c cs =>
      cases ds with
      | nil => exact absurd h1 (by simp [charListLt])
      | cons d ds =>
        simp only [charListLt] at h1 h2 ⊢
        by_cases hdc : d.toNat < c.toNat
        · rw [if_pos hdc] at h1
          cases h1
        · rw [if_neg hdc] at h1
          by_cases hed : e.toNat < d.toNat
          · rw [if_pos hed] at h2
            cases h2
          · rw [if_neg hed] at h2
            rw [if_neg (show ¬ e.toNat < c.toNat by omega)]
            by_cases hcd : c.toNat < d.toNat
            · rw [if_pos (show c.toNat < e.toNat by omega)]
            · by_cases hde : d.toNat < e.toNat
              · rw [if_pos (show c.toNat < e.toNat by omega)]
              · rw [if_neg hcd] at h1
                rw [if_neg hde] at h2
                rw [if_neg (show ¬ c.toNat < e.toNat by omega)]
                exact ih h1 h2

/-- Code point order on strings is asymmetric. -/
theorem stringLtB_asymm {a b : String} (h : stringLtB a b = true) :
    stringLtB b a = false :=
  charListLt_asymm h

/-- Nonstrict code point order on strings is transitive. -/
theorem stringLtB_le_trans {a b c : String} (h1 : stringLtB b a = false)
    (h2 : stringLtB c b = false) : stringLtB c a = false :=
  charListLt_le_trans h1 h2

/-- The locale comparison flips sign when the arguments swap. -/
theorem localeCompare_antisymm (a b : String) : localeCompare b a = -localeCompare a b := by
  unfold localeCompare
  cases h1 : stringLtB a b <;> cases h2 : stringLtB b a <;> simp [h1, h2]
  exact absurd (stringLtB_asymm h1) (by simp [h2])

/-- The comparator flips sign when the arguments swap. -/
theorem compareTypes_antisymm (a b : SchemaType) : compareTypes b a = -compareTypes a b := by
  unfold compareTypes
  by_cases hk : a.kind = b.kind
  · rw [if_pos hk.symm, if_pos hk, localeCompare_antisymm]
  · rw [if_neg (fun hc => hk hc.symm), if_neg hk]
    cases hA : typeOrder a.kind <;> cases hB : typeOrder b.kind <;> simp

/-- The comparator order is total. -/
theorem typeLe_total (a b : SchemaType) : typeLe a b ∨ typeLe b a := by
  unfold typeLe
  have h := compareTypes_antisymm a b
  omega

/-- The TypeOrder positions determine the kind. -/
theorem typeOrder_inj {k k2 : String} {x : Int} (h1 : typeOrder k = some x)
    (h2 : typeOrder k2 = some x) : k = k2 := by
  unfold typeOrder at h1 h2
  split_ifs at h1 h2 <;> simp_all <;> omega

/-- The locale comparison is nonpositive exactly when the second string
does not strictly precede the first. -/
theorem localeCompare_nonpos_iff (a b : String) :
    localeCompare a b ≤ 0 ↔ stringLtB b a = false := by
  unfold localeCompare
  cases h1 : stringLtB a b <;> cases h2 : stringLtB b a <;> simp [h1, h2]
  exact absurd (stringLtB_asymm h1) (by simp [h2])

/-- Nonpositive locale comparison is transitive. -/
theorem localeCompare_trans {a b c : String} (h1 : localeCompare a b ≤ 0)
    (h2 : localeCompare b c ≤ 0) : localeCompare a c ≤ 0 := by
  rw [localeCompare_nonpos_iff] at h1 h2 ⊢
  exact stringLtB_le_trans h1 h2

/-- Two known kinds agree exactly when their positions agree. -/
theorem kind_eq_iff_rank_eq {a b : SchemaType} {x y : Int}
    (hx : typeOrder a.kind = some x) (hy : typeOrder b.kind = some y) :
    a.kind = b.kind ↔ x = y := by
  constructor
  · intro h
    rw [h, hy] at hx
    exact (Option.some.inj hx).symm
  · intro h
    subst h
    exact typeOrder_inj hx hy

/-- The comparator order is transitive on entities of known kind. -/
theorem typeLe_trans_known {a b c : SchemaType}
    (ha : knownKind a) (hb : knownKind b) (hc : knownKind c)
    (hab : typeLe a b) (hbc : typeLe b c) : typeLe a c := by
  rcases Option.isSome_iff_exists.mp ha with ⟨x, hx⟩
  rcases Option.isSome_iff_exists.mp hb with ⟨y, hy⟩
  rcases Option.isSome_iff_exists.mp hc with ⟨z, hz⟩
  unfold typeLe compareTypes at hab hbc ⊢
  by_cases h1 : a.kind = b.kind <;> by_cases h2 : b.kind = c.kind
  · rw [if_pos h1] at hab
    rw [if_pos h2] at hbc
    rw [if_pos (h1.trans h2)]
    exact localeCompare_trans hab hbc
  · have hxy : x = y := (kind_eq_iff_rank_eq hx hy).mp h1
    have h3 : ¬ a.kind = c.kind := fun hcon => h2 (h1.symm.trans hcon)
    rw [if_pos h1] at hab
    simp only [if_neg h2, hy, hz] at hbc
    simp only [if_neg h3, hx, hz]
    omega
  · have hyz : y = z := (kind_eq_iff_rank_eq hy hz).mp h2
    have hxy : x ≠ y := fun hcon => h1 ((kind_eq_iff_rank_eq hx hy).mpr hcon)
    have h3 : ¬ a.kind = c.kind := fun hcon => h1 (hcon.trans h2.symm)
    simp only [if_neg h1, hx, hy] at hab
    rw [if_pos h2] at hbc
    simp only [if_neg h3, hx, hz]
    omega
  · simp only [if_neg h1, hx, hy] at hab
    simp only [if_neg h2, hy, hz] at hbc
    have hxy : x ≠ y := fun hcon => h1 ((kind_eq_iff_rank_eq hx hy).mpr hcon)
    have hyz : y ≠ z := fun hcon => h2 ((kind_eq_iff_rank_eq hy hz).mpr hcon)
    by_cases h3 : a.kind = c.kind
    · have hxz : x = z := (kind_eq_iff_rank_eq hx hz).mp h3
      exfalso
      omega
    · simp only [if_neg h3, hx, hz]
      omega

/-- Ordered insertion preserves sortedness when all entities have known
kind. -/
theorem pairwise_orderedInsert_known (a : SchemaType) (l : List SchemaType)
    (ha : knownKind a) (hl : ∀ x ∈ l, knownKind x) (hs : l.Pairwise typeLe) :
    (List.orderedInsert typeLe a l).Pairwise typeLe := by
  induction l with
  | nil => simp [List.orderedInsert]
  | cons b m ih =>
    rcases List.pairwise_cons.mp hs with ⟨hbm, hm⟩
    have hb := hl b (List.mem_cons_self b m)
    have hml : ∀ x ∈ m, knownKind x := fun x hx => hl x (List.mem_cons_of_mem b hx)
    by_cases hab : typeLe a b
    · rw [List.orderedInsert, if_pos hab]
      refine List.pairwise_cons.mpr ⟨?_, hs⟩
      intro x hx
      rcases List.mem_cons.mp hx with rfl | hxm
      · exact hab
      · exact typeLe_trans_known ha hb (hml x hxm) hab (hbm x hxm)
    · rw [List.orderedInsert, if_neg hab]
      refine List.pairwise_cons.mpr ⟨?_, ih hml hm⟩
      intro x hx
      rcases (List.mem_orderedInsert typeLe).mp hx with hxa | hxm
      · rw [hxa]
        exact (typeLe_total a b).resolve_left hab
      · exact hbm x hxm

/-- The stable sort produces a sorted list when all entities have known
kind. -/
theorem pairwise_insertionSort_known (l : List SchemaType)
    (hl : ∀ x ∈ l, knownKind x) :
    (List.insertionSort typeLe l).Pairwise typeLe := by
  induction l with
  | nil => simp
  | cons a m ih =>
    have ha := hl a (List.mem_cons_self a m)
    have hm : ∀ x ∈ m, knownKind x := fun x hx => hl x (List.mem_cons_of_mem a hx)
    rw [List.insertionSort]
    exact pairwise_orderedInsert_known a _ ha
      (fun x hx => hm x (by simpa using hx)) (ih hm)

/-- Sorting twice equals sorting once when all entities have known kind. -/
theorem insertionSort_idem_known (l : List SchemaType)
    (hl : ∀ x ∈ l, knownKind x) :
    List.insertionSort typeLe (List.insertionSort typeLe l) =
      List.insertionSort typeLe l :=
  List.Sorted.insertionSort_eq (pairwise_insertionSort_known l hl)

/-- On known kinds the comparator order coincides with the ordering the
specification asserts. -/
theorem typeLe_iff_specLe {a b : SchemaType} (ha : knownKind a) (hb : knownKind b) :
    typeLe a b ↔ specLe a b := by
  rcases Option.isSome_iff_exists.mp ha with ⟨x, hx⟩
  rcases Option.isSome_iff_exists.mp hb with ⟨y, hy⟩
  by_cases h : a.kind = b.kind
  · have hcmp : compareTypes a b = localeCompare a.name b.name := by
      unfold compareTypes
      rw [if_pos h]
    unfold typeLe specLe
    rw [hcmp]
    constructor
    · intro hle
      exact Or.inr ⟨h, hle⟩
    · intro hor
      rcases hor with ⟨x2, y2, hx2, hy2, hlt⟩ | ⟨_, hle⟩
      · rw [h, hy2] at hx2
        injection hx2 with he
        omega
      · exact hle
  · have hcmp : compareTypes a b = x - y := by
      unfold compareTypes
      simp only [if_neg h, hx, hy]
    unfold typeLe specLe
    rw [hcmp]
    constructor
    · intro hle
      have hxy : x ≠ y := fun hcon => h ((kind_eq_iff_rank_eq hx hy).mpr hcon)
      exact Or.inl ⟨x, y, hx, hy, by omega⟩
    · intro hor
      rcases hor with ⟨x2, y2, hx2, hy2, hlt⟩ | ⟨heq, _⟩
      · rw [hx] at hx2
        rw [hy] at hy2
        injection hx2 with he1
        injection hy2 with he2
        omega
      · exact absurd heq h

/-- The queue builder after a successful sort is the rendering pass over
the sorted entries. -/
theorem create_step (s : Schema) (a : AliasTable) (sorted : List TypeEntry)
    (hs : insertionSortE s.types = .ok sorted) :
    createSchemaDefinitionQueue s a =
      match buildBlocks (withStandardAlias a) sorted with
      | .error e => .error e
      | .ok blocks =>
        .ok (utilDefinition :: responseDefinition (responseTypesOf s) :: blocks,
             { s with types := sorted }) := by
  unfold createSchemaDefinitionQueue
  rw [hs]

/-- A sort failure aborts the queue builder with the same error. -/
theorem create_sort_err (s : Schema) (a : AliasTable) (e : String)
    (hs : insertionSortE s.types = .error e) :
    createSchemaDefinitionQueue s a = .error e := by
  unfold createSchemaDefinitionQueue
  rw [hs]

/-- The queue builder assembled from a successful sort and a successful
rendering pass. -/
theorem create_blocks_ok (s : Schema) (a : AliasTable) (sorted : List TypeEntry)
    (blocks : List String)
    (hs : insertionSortE s.types = .ok sorted)
    (hb : buildBlocks (withStandardAlias a) sorted = .ok blocks) :
    createSchemaDefinitionQueue s a =
      .ok (utilDefinition :: responseDefinition (responseTypesOf s) :: blocks,
           { s with types := sorted }) := by
  rw [create_step s a sorted hs, hb]

/-- A rendering failure after a successful sort aborts the queue builder
with the same error. -/
theorem create_blocks_err (s : Schema) (a : AliasTable) (sorted : List TypeEntry)
    (e : String)
    (hs : insertionSortE s.types = .ok sorted)
    (hb : buildBlocks (withStandardAlias a) sorted = .error e) :
    createSchemaDefinitionQueue s a = .error e := by
  rw [create_step s a sorted hs, hb]

/-- The queue builder on a schema of proper entities of known kinds: the
fixed preamble, then one block per entity in sorted order, and the types
array left permuted to the sorted order. -/
theorem create_known (s : Schema) (a : AliasTable) (l : List SchemaType)
    (hl : s.types = l.map .val) (hk : ∀ t ∈ l, knownKind t) :
    createSchemaDefinitionQueue s a =
      .ok (utilDefinition :: responseDefinition (responseTypesOf s) ::
            (List.insertionSort typeLe l).map (renderKnown (withStandardAlias a)),
           { s with types := (List.insertionSort typeLe l).map .val }) := by
  have hs : insertionSortE s.types = .ok ((List.insertionSort typeLe l).map .val) := by
    rw [hl]
    exact insertionSortE_val l
  have hk2 : ∀ t ∈ List.insertionSort typeLe l, knownKind t :=
    fun t ht => hk t (by simpa using ht)
  exact create_blocks_ok s a _ _ hs (buildBlocks_known _ _ hk2)

/-- The queue builder on proper known entities followed by a run of the JS
undefined: the undefined entries produce no block and no error, and stay
at the end of the sorted types array. -/
theorem create_known_undefs (s : Schema) (a : AliasTable) (l : List SchemaType)
    (k : Nat) (hl : s.types = l.map .val ++ List.replicate k .undef)
    (hk : ∀ t ∈ l, knownKind t) :
    createSchemaDefinitionQueue s a =
      .ok (utilDefinition :: responseDefinition (responseTypesOf s) ::
            (List.insertionSort typeLe l).map (renderKnown (withStandardAlias a)),
           { s with types :=
              (List.insertionSort typeLe l).map .val ++ List.replicate k .undef }) := by
  have hs : insertionSortE s.types =
      .ok ((List.insertionSort typeLe l).map .val ++ List.replicate k .undef) := by
    rw [hl]
    exact insertionSortE_val_undefs l k
  have hk2 : ∀ t ∈ List.insertionSort typeLe l, knownKind t :=
    fun t ht => hk t (by simpa using ht)
  exact create_blocks_ok s a _ _ hs (buildBlocks_known_undefs _ _ k hk2)

/-- A proper entity of unknown kind aborts the queue builder with an error
naming an unknown kind of the schema. -/
theorem create_unknown (s : Schema) (a : AliasTable) (l : List SchemaType)
    (hl : s.types = l.map .val)
    (h : ∃ t, t ∈ l ∧ ¬ knownKind t) :
    ∃ u, u ∈ l ∧ ¬ knownKind u ∧
      createSchemaDefinitionQueue s a = .error ("Unexpected type: " ++ u.kind) := by
  have hs : insertionSortE s.types = .ok ((List.insertionSort typeLe l).map .val) := by
    rw [hl]
    exact insertionSortE_val l
  have hsorted : ∃ t, t ∈ List.insertionSort typeLe l ∧ ¬ knownKind t := by
    rcases h with ⟨t, ht, hkt⟩
    exact ⟨t, by simpa using ht, hkt⟩
  rcases buildBlocks_unknown (withStandardAlias a) _ hsorted with ⟨u, hu, hku, herr⟩
  exact ⟨u, by simpa using hu, hku, create_blocks_err s a _ _ hs herr⟩

/-- A successful queue build over proper entities forces every kind to be
known. -/
theorem create_ok_inv (s : Schema) (a : AliasTable) (l : List SchemaType)
    (hl : s.types = l.map .val) (p : List String × Schema)
    (h : createSchemaDefinitionQueue s a = .ok p) : ∀ t ∈ l, knownKind t := by
  by_contra hcon
  push_neg at hcon
  rcases hcon with ⟨t, ht, hkt⟩
  rcases create_unknown s a l hl ⟨t, ht, hkt⟩ with ⟨u, _, _, herr⟩
  rw [herr] at h
  cases h

/-- The chunk sequence of a ready consumer concatenates to the eager
output: the blocks joined by the double separator plus the trailing
separator. -/
theorem concat_readAllReady (x : String) (rest : List String) :
    concatChunks (readAllReady (x :: rest)) =
      joinSep (EOL ++ EOL) (x :: rest) ++ (EOL ++ EOL) := by
  induction rest generalizing x with
  | nil =>
    show (x ++ EOL ++ EOL) ++ "" = x ++ (EOL ++ EOL)
    rw [String.append_empty, String.append_assoc]
  | cons y rest ih =>
    show (x ++ EOL ++ EOL) ++ concatChunks (readAllReady (y :: rest)) = _
    rw [ih y]
    show _ = (x ++ (EOL ++ EOL) ++ joinSep (EOL ++ EOL) (y :: rest)) ++ (EOL ++ EOL)
    simp [String.append_assoc]

/-- Iterating the next closure accumulates exactly the chunk contents. -/
theorem promiseNextRun_concat (q : List String) (buff : String) :
    promiseNextRun q buff = buff ++ concatChunks (readAllReady q) := by
  induction q generalizing buff with
  | nil =>
    show buff = buff ++ ""
    rw [String.append_empty]
  | cons t rest ih =>
    show promiseNextRun rest (buff ++ t ++ EOL ++ EOL) = buff ++ ((t ++ EOL ++ EOL) ++ concatChunks (readAllReady rest))
    rw [ih]
    simp [String.append_assoc]

/-!  Claim theorems. -/

/-- C2: the resolver maps the four nullability combinations of a named
type deterministically, with the bare reference optional, NON_NULL bare,
LIST optional inside, and the non-null flag reset to false on descending
into a LIST and set on descending into a NON_NULL. -/
theorem claim_C2_refToDefinition (k T : String) (b : Bool) :
    refToDefinition (.named k T) false = "Optional<" ++ T ++ ">" ∧
    refToDefinition (.nonNull (.named k T)) false = "NonNull<" ++ T ++ ">" ∧
    refToDefinition (.list (.named k T)) false =
      "List<" ++ ("Optional<" ++ T ++ ">") ++ ">" ∧
    refToDefinition (.nonNull (.list (.nonNull (.named k T)))) false =
      "NonNull<" ++ ("List<" ++ ("NonNull<" ++ T ++ ">") ++ ">") ++ ">" ∧
    (∀ t : TypeRef, refToDefinition (.list t) b =
      "List<" ++ refToDefinition t false ++ ">") ∧
    (∀ t : TypeRef, refToDefinition (.nonNull t) b =
      "NonNull<" ++ refToDefinition t true ++ ">") := by
  refine ⟨rfl, rfl, rfl, rfl, fun t => rfl, fun t => rfl⟩

/-- C8: the synthesizer emits a block only if a facet is truthy, and an
entity whose defaultValue is the number 0 or the empty string, with no
description and not deprecated, yields the empty string, hence no default
annotation. -/
theorem claim_C8_descriptionToComment (d : DocFacets) (tab : String) :
    (¬ hasDocFacet d → descriptionToComment d tab = "") ∧
    ((d.defaultValue = .num 0 ∨ d.defaultValue = .str "") → d.description = "" →
      d.isDeprecated = false →
      ¬ hasDocFacet d ∧ descriptionToComment d tab = "") := by
  constructor
  · intro h
    have h' : ¬ (d.defaultValue.truthy ∨ jsTruthy d.description ∨ d.isDeprecated = true) := h
    unfold descriptionToComment
    rw [if_neg h']
  · intro hdv hdesc hdep
    have h : ¬ hasDocFacet d := by
      intro hcon
      rcases hcon with h1 | h2 | h3
      · rcases hdv with h0 | h0 <;> rw [h0] at h1 <;> exact h1 rfl
      · exact h2 hdesc
      · rw [hdep] at h3; cases h3
    have h' : ¬ (d.defaultValue.truthy ∨ jsTruthy d.description ∨ d.isDeprecated = true) := h
    refine ⟨h, ?_⟩
    unfold descriptionToComment
    rw [if_neg h']

/-- Witness for C8 at the concrete facets of a default of literal zero. -/
theorem claim_C8_witness :
    ¬ hasDocFacet ⟨"", false, "", .num 0⟩ ∧
    descriptionToComment ⟨"", false, "", .num 0⟩ "" = "" :=
  (claim_C8_descriptionToComment ⟨"", false, "", .num 0⟩ "").2
    (Or.inl rfl) rfl rfl

/-- C9: an InputValue with empty description renders with no comment block
at all, whatever its defaultValue, because the synthesizer is invoked only
under the truthiness of the description; the member line is the bare name,
separator, resolved type and terminator. -/
theorem claim_C9_inputValueToDefinition (arg : InputValue)
    (h : arg.description = "") :
    inputValueToDefinition arg =
      EOL ++ (TAB ++ arg.name ++
        (if arg.type.kind = "NON_NULL" then ": " else "?: ") ++
        refToDefinition arg.type false ++ ";") := by
  have hg : (if jsTruthy arg.description then [descriptionToComment arg.docFacets TAB]
      else ([] : List String)) = [] :=
    if_neg (fun hc => hc h)
  unfold inputValueToDefinition
  rw [hg]
  rfl

/-- Witness for C9: an input value with a truthy defaultValue and empty
description renders without any comment, losing the default annotation. -/
theorem claim_C9_witness :
    inputValueToDefinition
        { name := "friends", description := "", defaultValue := .str "[]",
          type := .named "SCALAR" "ID" } =
      EOL ++ (TAB ++ "friends" ++
        (if TypeRef.kind (.named "SCALAR" "ID") = "NON_NULL" then ": " else "?: ") ++
        refToDefinition (.named "SCALAR" "ID") false ++ ";") :=
  claim_C9_inputValueToDefinition
    { name := "friends", description := "", defaultValue := .str "[]",
      type := .named "SCALAR" "ID" } rfl

/-- C1 counterexample: with the caller alias mapping Int to a custom
expression, the emitted SCALAR block for Int still uses the built-in
numeric default, because Object.assign applies the built-in mappings after
the caller entries; the caller expression never appears. -/
theorem claim_C1_counterexample :
    createSchemaDefinitionQueue c1Schema c1Alias =
      .ok ([utilDefinition, responseDefinition ["null"],
            "export type Int = number;"], c1Schema) ∧
    "export type Int = number;" ≠ "export type Int = bigint-equivalent;" := by
  exact ⟨rfl, by decide⟩

/-- C1 amended: caller entries extend the table for names other than the
four built-ins, but for Boolean, Int, Float and String the seeded built-in
mappings are assigned last and win; in particular a SCALAR entity named
Int always renders with the numeric default. -/
theorem claim_C1_amended (a : AliasTable) (name : String) (t : SchemaType)
    (hk : t.kind = "SCALAR") (hn : t.name = "Int") (hd : t.description = "") :
    withStandardAlias a "Boolean" = some "boolean" ∧
    withStandardAlias a "Int" = some "number" ∧
    withStandardAlias a "Float" = some "number" ∧
    withStandardAlias a "String" = some "string" ∧
    (name ≠ "Boolean" → name ≠ "Int" → name ≠ "Float" → name ≠ "String" →
      withStandardAlias a name = a name) ∧
    renderEntity (withStandardAlias a) t = .ok "export type Int = number;" := by
  refine ⟨rfl, rfl, rfl, rfl, ?_, ?_⟩
  · intro h1 h2 h3 h4
    unfold withStandardAlias
    rw [if_neg h1, if_neg h2, if_neg h3, if_neg h4]
  · unfold renderEntity
    rw [if_pos hk]
    unfold scalarToDefinition
    rw [hn, hd]
    rfl

/-- Witness for C1 amended at the caller table of the counterexample. -/
theorem claim_C1_amended_witness :
    withStandardAlias c1Alias "Boolean" = some "boolean" ∧
    withStandardAlias c1Alias "Int" = some "number" ∧
    withStandardAlias c1Alias "Float" = some "number" ∧
    withStandardAlias c1Alias "String" = some "string" ∧
    ("Foo" ≠ "Boolean" → "Foo" ≠ "Int" → "Foo" ≠ "Float" → "Foo" ≠ "String" →
      withStandardAlias c1Alias "Foo" = c1Alias "Foo") ∧
    renderEntity (withStandardAlias c1Alias) scalarInt =
      .ok "export type Int = number;" :=
  claim_C1_amended c1Alias "Foo" scalarInt rfl rfl rfl

/-- C3: for every schema of proper entities of known kinds the emitted
blocks follow the two fixed preamble units in the stable sorted order, and
that order satisfies the kind precedence with ascending names within equal
kind; in particular the entity set B, A, Z, A2 emits as A, Z, A2, B. -/
theorem claim_C3_ordering :
    (∀ (s : Schema) (a : AliasTable) (l : List SchemaType),
      s.types = l.map .val → (∀ t ∈ l, knownKind t) →
      createSchemaDefinitionQueue s a =
        .ok (utilDefinition :: responseDefinition (responseTypesOf s) ::
              (List.insertionSort typeLe l).map (renderKnown (withStandardAlias a)),
             { s with types := (List.insertionSort typeLe l).map .val }) ∧
      (List.insertionSort typeLe l).Pairwise specLe) ∧
    createSchemaDefinitionQueue c3Schema emptyAlias =
      .ok ([utilDefinition, responseDefinition ["null"],
            renderKnown (withStandardAlias emptyAlias) c3A,
            renderKnown (withStandardAlias emptyAlias) c3Z,
            renderKnown (withStandardAlias emptyAlias) c3A2,
            renderKnown (withStandardAlias emptyAlias) c3B],
           { c3Schema with
              types := [.val c3A, .val c3Z, .val c3A2, .val c3B] }) := by
  constructor
  · intro s a l hl hk
    refine ⟨create_known s a l hl hk, ?_⟩
    have hp := pairwise_insertionSort_known l hk
    exact hp.imp_of_mem (fun {x y} hx hy hxy =>
      (typeLe_iff_specLe (hk x (by simpa using hx)) (hk y (by simpa using hy))).mp hxy)
  · rfl

/-- Witness for C3 applying the general part at the ordering example. -/
theorem claim_C3_witness :
    createSchemaDefinitionQueue c3Schema emptyAlias =
      .ok (utilDefinition :: responseDefinition (responseTypesOf c3Schema) ::
            (List.insertionSort typeLe [c3B, c3A, c3Z, c3A2]).map
              (renderKnown (withStandardAlias emptyAlias)),
           { c3Schema with
              types := (List.insertionSort typeLe [c3B, c3A, c3Z, c3A2]).map .val }) ∧
    (List.insertionSort typeLe [c3B, c3A, c3Z, c3A2]).Pairwise specLe :=
  claim_C3_ordering.1 c3Schema emptyAlias [c3B, c3A, c3Z, c3A2] rfl (by decide)

/-- C4: the eager output equals the concatenated chunk sequence a ready
consumer drains from the readable pattern, in the same order, and both
terminate; the promise pattern as coded never settles because its driver
closure is never invoked, although iterating that driver would produce the
same bytes. -/
theorem claim_C4_access_patterns (s : Schema) (a : AliasTable)
    (q : List String) (post : Schema)
    (h : createSchemaDefinitionQueue s a = .ok (q, post)) :
    schemaToDefinition s a = .ok (concatChunks (readAllReady q), post) ∧
    createReadableSchemaDefinition s a = .ok (readAllReady q) ∧
    promiseNextRun q "" = concatChunks (readAllReady q) ∧
    createPromiseSchemaDefinition s a = .ok none := by
  obtain ⟨q0, rest, hq⟩ : ∃ q0 rest, q = q0 :: rest := by
    cases hs : insertionSortE s.types with
    | error e =>
      rw [create_sort_err s a e hs] at h
      cases h
    | ok sorted =>
      cases hb : buildBlocks (withStandardAlias a) sorted with
      | error e =>
        rw [create_blocks_err s a sorted e hs hb] at h
        cases h
      | ok blocks =>
        rw [create_blocks_ok s a sorted blocks hs hb] at h
        injection h with h3
        exact ⟨_, _, (congrArg Prod.fst h3).symm⟩
  refine ⟨?_, ?_, ?_, ?_⟩
  · unfold schemaToDefinition
    rw [h, hq, concat_readAllReady]
  · unfold createReadableSchemaDefinition
    rw [h]
  · rw [promiseNextRun_concat, String.empty_append]
  · unfold createPromiseSchemaDefinition
    rw [h]

/-- Witness for C4 at the singleton Int scalar schema. -/
theorem claim_C4_witness :
    schemaToDefinition c1Schema emptyAlias =
      .ok (concatChunks (readAllReady
            [utilDefinition, responseDefinition ["null"],
             "export type Int = number;"]), c1Schema) ∧
    createReadableSchemaDefinition c1Schema emptyAlias =
      .ok (readAllReady [utilDefinition, responseDefinition ["null"],
            "export type Int = number;"]) ∧
    promiseNextRun [utilDefinition, responseDefinition ["null"],
        "export type Int = number;"] "" =
      concatChunks (readAllReady [utilDefinition, responseDefinition ["null"],
        "export type Int = number;"]) ∧
    createPromiseSchemaDefinition c1Schema emptyAlias = .ok none :=
  claim_C4_access_patterns c1Schema emptyAlias
    [utilDefinition, responseDefinition ["null"], "export type Int = number;"]
    c1Schema rfl

/-- C5 counterexample: the queue builder sorts schema.types in place, so
the types collection of the input schema object is mutated whenever it is
not already in sorted order; here the input order B, A comes back A, B. -/
theorem claim_C5_counterexample :
    createSchemaDefinitionQueue c5Schema emptyAlias =
      .ok ([utilDefinition, responseDefinition ["null"],
            renderKnown (withStandardAlias emptyAlias) c3A,
            renderKnown (withStandardAlias emptyAlias) c3B],
           { c5Schema with types := [.val c3A, .val c3B] }) ∧
    [TypeEntry.val c3A, .val c3B] ≠ c5Schema.types :=
  ⟨rfl, by decide⟩

/-- C5 amended: the translation produces text and leaves every schema
component except the types array untouched; the types array is reordered
in place to the sorted order, a permutation of the input with the entities
themselves unchanged. -/
theorem claim_C5_amended (s : Schema) (a : AliasTable) (l : List SchemaType)
    (q : List String) (post : Schema)
    (hl : s.types = l.map .val)
    (h : createSchemaDefinitionQueue s a = .ok (q, post)) :
    post.queryType = s.queryType ∧ post.mutationType = s.mutationType ∧
    post.subscriptionType = s.subscriptionType ∧ post.directives = s.directives ∧
    post.types.Perm s.types ∧
    post.types = (List.insertionSort typeLe l).map .val := by
  have hk := create_ok_inv s a l hl (q, post) h
  have hc := create_known s a l hl hk
  rw [h] at hc
  injection hc with h2
  have hpost : post = { s with types := (List.insertionSort typeLe l).map .val } :=
    congrArg Prod.snd h2
  subst hpost
  refine ⟨rfl, rfl, rfl, rfl, ?_, rfl⟩
  rw [hl]
  show ((List.insertionSort typeLe l).map TypeEntry.val).Perm (l.map TypeEntry.val)
  exact (List.perm_insertionSort typeLe l).map TypeEntry.val

/-- Witness for C5 amended at the two entity schema of the counterexample. -/
theorem claim_C5_amended_witness :
    ({ c5Schema with types := [TypeEntry.val c3A, .val c3B] } : Schema).queryType =
      c5Schema.queryType ∧
    ({ c5Schema with types := [TypeEntry.val c3A, .val c3B] } : Schema).mutationType =
      c5Schema.mutationType ∧
    ({ c5Schema with types := [TypeEntry.val c3A, .val c3B] } : Schema).subscriptionType =
      c5Schema.subscriptionType ∧
    ({ c5Schema with types := [TypeEntry.val c3A, .val c3B] } : Schema).directives =
      c5Schema.directives ∧
    ({ c5Schema with types := [TypeEntry.val c3A, .val c3B] } : Schema).types.Perm
      c5Schema.types ∧
    ({ c5Schema with types := [TypeEntry.val c3A, .val c3B] } : Schema).types =
      (List.insertionSort typeLe [c3B, c3A]).map TypeEntry.val :=
  claim_C5_amended c5Schema emptyAlias [c3B, c3A]
    [utilDefinition, responseDefinition ["null"],
     renderKnown (withStandardAlias emptyAlias) c3A,
     renderKnown (withStandardAlias emptyAlias) c3B]
    { c5Schema with types := [TypeEntry.val c3A, .val c3B] } rfl rfl

/-- C6: translating a schema object and then translating the resulting
object again with the same alias table yields the same output pair, so two
runs over the same object produce byte identical text even though the
first run reorders the types array in place. -/
theorem claim_C6_idempotence (s : Schema) (a : AliasTable) (l : List SchemaType)
    (hl : s.types = l.map .val) (out : String) (s2 : Schema)
    (h : schemaToDefinition s a = .ok (out, s2)) :
    schemaToDefinition s2 a = .ok (out, s2) := by
  cases hc : createSchemaDefinitionQueue s a with
  | error e =>
    unfold schemaToDefinition at h
    rw [hc] at h
    have h2 : (Except.error e : Except String (String × Schema)) = .ok (out, s2) := h
    cases h2
  | ok p =>
    obtain ⟨q, post⟩ := p
    unfold schemaToDefinition at h
    rw [hc] at h
    have h2 : (Except.ok (joinSep (EOL ++ EOL) q ++ (EOL ++ EOL), post) :
        Except String (String × Schema)) = .ok (out, s2) := h
    injection h2 with h3
    have hout : joinSep (EOL ++ EOL) q ++ (EOL ++ EOL) = out := congrArg Prod.fst h3
    have hpost : post = s2 := congrArg Prod.snd h3
    subst hpost
    subst hout
    have hk := create_ok_inv s a l hl (q, post) hc
    have hcs := create_known s a l hl hk
    rw [hc] at hcs
    injection hcs with h4
    have hq : q = utilDefinition :: responseDefinition (responseTypesOf s) ::
        (List.insertionSort typeLe l).map (renderKnown (withStandardAlias a)) :=
      congrArg Prod.fst h4
    have hpost2 : post = { s with types := (List.insertionSort typeLe l).map .val } :=
      congrArg Prod.snd h4
    have hk2 : ∀ t ∈ List.insertionSort typeLe l, knownKind t :=
      fun t ht => hk t (by simpa using ht)
    have hc2 := create_known post a (List.insertionSort typeLe l)
      (by rw [hpost2]) hk2
    rw [insertionSort_idem_known l hk] at hc2
    have hresp : responseTypesOf post = responseTypesOf s := by
      rw [hpost2]
      rfl
    have hfix : ({ post with
        types := (List.insertionSort typeLe l).map .val } : Schema) = post := by
      rw [hpost2]
    rw [hresp, hfix] at hc2
    unfold schemaToDefinition
    rw [hc2, ← hq]

/-- Witness for C6 at the singleton Int scalar schema, whose types array
is already sorted, so both runs return the same pair. -/
theorem claim_C6_witness :
    schemaToDefinition c1Schema emptyAlias =
      .ok (joinSep (EOL ++ EOL) [utilDefinition, responseDefinition ["null"],
            "export type Int = number;"] ++ (EOL ++ EOL), c1Schema) :=
  claim_C6_idempotence c1Schema emptyAlias [scalarInt] rfl
    (joinSep (EOL ++ EOL) [utilDefinition, responseDefinition ["null"],
      "export type Int = number;"] ++ (EOL ++ EOL)) c1Schema rfl

/-- C7: a proper entity whose kind is outside the six dispatched kinds
makes the queue builder abort with a fatal error whose message names an
offending unknown kind; no unknown kind entity is silently skipped. -/
theorem claim_C7_unknown_kind (s : Schema) (a : AliasTable) (l : List SchemaType)
    (hl : s.types = l.map .val) (t : SchemaType) (ht : t ∈ l)
    (hk : ¬ knownKind t) :
    ∃ u, u ∈ l ∧ ¬ knownKind u ∧
      createSchemaDefinitionQueue s a = .error ("Unexpected type: " ++ u.kind) :=
  create_unknown s a l hl ⟨t, ht, hk⟩

/-- Witness for C7 at the schema holding one entity of kind WEIRD. -/
theorem claim_C7_witness :
    ∃ u, u ∈ [weirdType] ∧ ¬ knownKind u ∧
      createSchemaDefinitionQueue c7Schema emptyAlias =
        .error ("Unexpected type: " ++ u.kind) :=
  claim_C7_unknown_kind c7Schema emptyAlias [weirdType] rfl weirdType
    (List.mem_singleton.mpr rfl) (by decide)

/-- C10 counterexample: a JS null entry next to a proper entry reaches the
sort comparator, whose property access on null raises a TypeError, so the
queue builder does raise an error for a null entry. -/
theorem claim_C10_counterexample :
    createSchemaDefinitionQueue c10Schema emptyAlias =
      .error "TypeError: Cannot read properties of null" := rfl

/-- C10 amended: undefined entries anywhere in the types array are
silently dropped with no block and no error (the sort moves each of them
to the end without consulting the comparator and the truthiness guard
skips them); a null entry is dropped silently only when the comparator
never receives it, as in a singleton types array, while a null compared
against a proper entry raises a TypeError during the sort; the unknown
kind error fires only for truthy entries. -/
theorem claim_C10_amended :
    (∀ (s : Schema) (a : AliasTable),
      (∀ e ∈ s.types, e ≠ TypeEntry.null) →
      (∀ t ∈ valsOf s.types, knownKind t) →
      createSchemaDefinitionQueue s a =
        .ok (utilDefinition :: responseDefinition (responseTypesOf s) ::
              (List.insertionSort typeLe (valsOf s.types)).map
                (renderKnown (withStandardAlias a)),
             { s with types :=
                (List.insertionSort typeLe (valsOf s.types)).map .val ++
                  List.replicate (undefCount s.types) .undef })) ∧
    (∀ (s : Schema) (a : AliasTable), s.types = [.null] →
      createSchemaDefinitionQueue s a =
        .ok ([utilDefinition, responseDefinition (responseTypesOf s)],
             { s with types := [.null] })) ∧
    (∀ (s : Schema) (a : AliasTable) (t : SchemaType), s.types = [.val t, .null] →
      createSchemaDefinitionQueue s a =
        .error "TypeError: Cannot read properties of null") := by
  refine ⟨?_, ?_, ?_⟩
  · intro s a hnull hk
    have hs := insertionSortE_mixed s.types hnull
    have hk2 : ∀ t ∈ List.insertionSort typeLe (valsOf s.types), knownKind t :=
      fun t ht => hk t (by simpa using ht)
    exact create_blocks_ok s a _ _ hs
      (buildBlocks_known_undefs (withStandardAlias a) _ (undefCount s.types) hk2)
  · intro s a hs
    have h1 : insertionSortE s.types = .ok [.null] := by
      rw [hs]
      rfl
    exact create_blocks_ok s a [.null] [] h1 rfl
  · intro s a t hs
    have h1 : insertionSortE s.types =
        .error "TypeError: Cannot read properties of null" := by
      rw [hs]
      rfl
    exact create_sort_err s a _ h1

/-- Witness for C10 amended: an undefined entry in front of a proper
entry is moved to the end and dropped without error, and a null entry
next to a proper entry raises the TypeError. -/
theorem claim_C10_amended_witness :
    createSchemaDefinitionQueue c10uSchema emptyAlias =
      .ok (utilDefinition :: responseDefinition (responseTypesOf c10uSchema) ::
            (List.insertionSort typeLe (valsOf c10uSchema.types)).map
              (renderKnown (withStandardAlias emptyAlias)),
           { c10uSchema with
              types := (List.insertionSort typeLe (valsOf c10uSchema.types)).map .val ++
                List.replicate (undefCount c10uSchema.types) .undef }) ∧
    createSchemaDefinitionQueue c10Schema emptyAlias =
      .error "TypeError: Cannot read properties of null" :=
  ⟨claim_C10_amended.1 c10uSchema emptyAlias (by decide) (by decide),
   claim_C10_amended.2.2 c10Schema emptyAlias c3A rfl⟩

end Graphtype
